import Mathlib

/-!
Verification of `src/app/python/web_scraper/web_scraper.py`
(`CryptoDataFetcher` and its helpers), shallowly embedded in Lean.

Python values that can appear in a parsed JSON body are modelled by
`JValue`; Python exceptions relevant to the embedded code by `PyError`;
the observable effects (stdout lines, network calls) by `World`.
Fallible Python code is modelled with `Except PyError`.
-/

set_option autoImplicit false

namespace WebScraper

/-- A JSON value as produced by `response.json()` in Python. -/
inductive JValue where
  | null : JValue
  | bool (b : Bool) : JValue
  | num (n : Int) : JValue
  | str (s : String) : JValue
  | arr (xs : List JValue) : JValue
  | obj (fields : List (String × JValue)) : JValue

/-- Python exceptions that the embedded code can raise or catch. -/
inductive PyError where
  | typeError : PyError
  | attributeError : PyError
  | keyError : PyError
  | jsonDecodeError : PyError
deriving DecidableEq, Repr

/-- Python truthiness (`if x:`) of a JSON value. -/
def pyTruthy : JValue → Bool
  | .null => false
  | .bool b => b
  | .num n => n != 0
  | .str s => !s.isEmpty
  | .arr xs => !xs.isEmpty
  | .obj fs => !fs.isEmpty

/-- Dictionary lookup `d[k]` / `d.get(k)`: the first binding of key `k`. -/
def objGet (fs : List (String × JValue)) (k : String) : Option JValue :=
  (fs.find? fun p => p.1 == k).map (·.2)

/-- Whether `needle` occurs at the head of `hay` (character lists). -/
def charsMatchFrom : List Char → List Char → Bool
  | [], _ => true
  | _ :: _, [] => false
  | a :: as, b :: bs => a == b && charsMatchFrom as bs

/-- Whether `needle` occurs anywhere inside `hay` (character lists). -/
def charsHasSub (needle : List Char) : List Char → Bool
  | [] => charsMatchFrom needle []
  | b :: bs => charsMatchFrom needle (b :: bs) || charsHasSub needle bs

/-- Python membership test `needle in v` for a string `needle`:
key membership for dicts, substring for strings, element equality for
lists, and a `TypeError` for values that are not containers
(numbers, booleans, `None`). -/
def pyContains (needle : String) : JValue → Except PyError Bool
  | .obj fs => .ok (fs.any fun p => p.1 == needle)
  | .str s => .ok (charsHasSub needle.toList s.toList)
  | .arr xs => .ok (xs.any fun v =>
      match v with
      | .str t => t == needle
      | _ => false)
  | _ => .error .typeError

/-- The observable effects of a call: lines printed to stdout and the
number of network requests issued. -/
structure World where
  stdout : List String
  networkCalls : Nat
deriving DecidableEq, Repr

/-- `print(line)`: append one line to stdout. -/
def pr (w : World) (line : String) : World :=
  { w with stdout := w.stdout ++ [line] }

/-- The `required_fields` list of `validate_price_data`. -/
def requiredFields : List String := ["usd", "usd_24h_change", "usd_market_cap"]

/-- Inner loop of `validate_price_data`: `for field in required_fields:
if field not in crypto_data: print(...); return False`. -/
def validateFieldsW (cryptoId : String) (cryptoData : JValue) :
    List String → World → Except PyError Bool × World
  | [], w => (.ok true, w)
  | f :: fs, w =>
    match pyContains f cryptoData with
    | .error e => (.error e, w)
    | .ok false => (.ok false, pr w s!"Missing field {f} for {cryptoId}")
    | .ok true => validateFieldsW cryptoId cryptoData fs w

/-- Outer loop of `validate_price_data`: `for crypto_id in expected_ids:
if crypto_id not in data: print(...); return False` followed by the
inner field loop on `data[crypto_id]`. -/
def validateIdsW (fs : List (String × JValue)) :
    List String → World → Except PyError Bool × World
  | [], w => (.ok true, w)
  | cid :: rest, w =>
    match objGet fs cid with
    | none => (.ok false, pr w s!"Missing data for {cid}")
    | some cd =>
      match validateFieldsW cid cd requiredFields w with
      | (.ok true, w2) => validateIdsW fs rest w2
      | (r, w2) => (r, w2)

/-- `CryptoDataFetcher.validate_price_data(data, expected_ids)` with its
effects on the world made explicit. A non-dict payload returns `False`
immediately (`isinstance` check). -/
def validate_price_dataW (data : JValue) (expectedIds : List String)
    (w : World) : Except PyError Bool × World :=
  match data with
  | .obj fs => validateIdsW fs expectedIds w
  | _ => (.ok false, w)

/-- The value returned (or exception raised) by
`CryptoDataFetcher.validate_price_data(data, expected_ids)`. -/
def validate_price_data (data : JValue) (expectedIds : List String) :
    Except PyError Bool :=
  (validate_price_dataW data expectedIds ⟨[], 0⟩).1

/-- A (successful, 2xx) HTTP response as returned by `fetch_with_retry`:
only its `.json()` behaviour matters to the embedded code — it either
parses to a `JValue` or raises `json.JSONDecodeError`. -/
structure Response where
  jsonResult : Except PyError JValue

/-- The outcome of one `self.session.get(...)` attempt followed by
`response.raise_for_status()`: a 2xx response, or one of the expected
failure modes (network error, timeout, non-2xx status). -/
inductive AttemptOutcome where
  | success (r : Response) : AttemptOutcome
  | connError : AttemptOutcome
  | timeoutError : AttemptOutcome
  | httpStatusError (code : Nat) : AttemptOutcome

/-- Whether an attempt outcome is a 2xx success. -/
def AttemptOutcome.isSuccess : AttemptOutcome → Bool
  | .success _ => true
  | _ => false

/-- The `requests` exceptions an attempt can raise: `ConnectionError`
(network error), `Timeout`, `HTTPError` (from `raise_for_status`). -/
inductive ReqExcKind where
  | connectionError : ReqExcKind
  | timeoutExc : ReqExcKind
  | httpError : ReqExcKind

/-- `isinstance(e, requests.exceptions.RequestException)`: every
exception an attempt can raise derives from `RequestException`. -/
def isRequestException : ReqExcKind → Bool := fun _ => true

/-- One attempt of the `try` body: `response = self.session.get(...)`,
`response.raise_for_status()`, `return response`. -/
def attemptResult : AttemptOutcome → Except ReqExcKind Response
  | .success r => .ok r
  | .connError => .error .connectionError
  | .timeoutError => .error .timeoutExc
  | .httpStatusError _ => .error .httpError

/-- What a call to `fetch_with_retry` did: its returned value (`.error`
would mean an exception escaped to the caller), the indices of the
attempts it performed, and the `time.sleep` durations in order. -/
structure FetchResult where
  result : Except ReqExcKind (Option Response)
  attempts : List Nat
  sleeps : List Nat

/-- The `for attempt in range(self.max_retries)` loop of
`fetch_with_retry`. `fuel` is the number of loop iterations remaining
and `attempt` the current index; on a failed attempt the wait time is
`2 ** attempt`, slept only when `attempt < max_retries - 1`. -/
def fetchLoop (outcomes : Nat → AttemptOutcome) (maxRetries : Int) :
    Nat → Nat → FetchResult
  | 0, _ => ⟨.ok none, [], []⟩
  | fuel + 1, attempt =>
    match attemptResult (outcomes attempt) with
    | .ok r => ⟨.ok (some r), [attempt], []⟩
    | .error e =>
      if isRequestException e then
        let waitTime := 2 ^ attempt
        if (attempt : Int) < maxRetries - 1 then
          let rest := fetchLoop outcomes maxRetries fuel (attempt + 1)
          ⟨rest.result, attempt :: rest.attempts, waitTime :: rest.sleeps⟩
        else
          let rest := fetchLoop outcomes maxRetries fuel (attempt + 1)
          ⟨rest.result, attempt :: rest.attempts, rest.sleeps⟩
      else ⟨.error e, [attempt], []⟩

/-- `CryptoDataFetcher.fetch_with_retry(url, params)`. The transport
layer is abstracted by `outcomes`, giving the outcome of each attempt
index; `maxRetries` is `self.max_retries` (Python `range(n)` is empty
for non-positive `n`, hence the `Int.toNat`). After the loop the method
returns `None`. -/
def fetch_with_retry (outcomes : Nat → AttemptOutcome) (maxRetries : Int) :
    FetchResult :=
  fetchLoop outcomes maxRetries maxRetries.toNat 0

/-- `CryptoDataFetcher.fetch_crypto_prices(crypto_ids)` downstream of
the transport: `fetchResult` is what `fetch_with_retry` returned. The
`try` block parses the body and validates it; only
`json.JSONDecodeError` is caught, so a `TypeError` raised by
`validate_price_data` propagates. All failure paths return `None`. -/
def fetch_crypto_prices (fetchResult : Option Response)
    (cryptoIds : List String) : Except PyError (Option JValue) :=
  match fetchResult with
  | none => .ok none
  | some resp =>
    match resp.jsonResult with
    | .error .jsonDecodeError => .ok none
    | .error e => .error e
    | .ok data =>
      match validate_price_data data cryptoIds with
      | .ok true => .ok (some data)
      | .ok false => .ok none
      | .error .jsonDecodeError => .ok none
      | .error e => .error e

/-- The dictionary built by `fetch_additional_market_data`. -/
structure MarketData where
  name : JValue
  symbol : String
  description : String

/-- `CryptoDataFetcher.fetch_additional_market_data(crypto_symbol)`
downstream of the transport. Mirrors the dict construction:
`data.get('name', 'Unknown')`, `data.get('symbol', '').upper()` (an
`AttributeError` if the symbol value is not a string), and the
conditional description: `data.get('description', {}).get('en', '')
[:100] + '...'` when `data.get('description', {}).get('en')` is truthy,
else `'No description available'`. Only `json.JSONDecodeError` and
`KeyError` are caught; `AttributeError`/`TypeError` propagate. -/
def fetch_additional_market_data (fetchResult : Option Response) :
    Except PyError (Option MarketData) :=
  match fetchResult with
  | none => .ok none
  | some resp =>
    match resp.jsonResult with
    | .error .jsonDecodeError => .ok none
    | .error .keyError => .ok none
    | .error e => .error e
    | .ok data =>
      match data with
      | .obj fs =>
        let nameVal := (objGet fs "name").getD (.str "Unknown")
        match (objGet fs "symbol").getD (.str "") with
        | .str symRaw =>
          match (objGet fs "description").getD (.obj []) with
          | .obj dfs =>
            if pyTruthy ((objGet dfs "en").getD .null) then
              match (objGet dfs "en").getD (.str "") with
              | .str en =>
                .ok (some ⟨nameVal, symRaw.toUpper, en.take 100 ++ "..."⟩)
              | _ => .error .typeError
            else
              .ok (some ⟨nameVal, symRaw.toUpper, "No description available"⟩)
          | _ => .error .attributeError
        | _ => .error .attributeError
      | _ => .error .attributeError

/-- Whether a JSON value is a keyed mapping (a dict). -/
def isObj : JValue → Bool
  | .obj _ => true
  | _ => false

/-- Spec-side validity predicate, following the spec's words: the
payload is a keyed mapping, every expected id is present as a top-level
key, and every expected id's record contains all three fixed sub-fields
(as keys of the record). -/
def specValidPayload (data : JValue) (expectedIds : List String) : Bool :=
  match data with
  | .obj fs =>
    expectedIds.all fun cid =>
      match objGet fs cid with
      | some (.obj rec) => requiredFields.all fun f => rec.any fun p => p.1 == f
      | _ => false
  | _ => false

/-- Every expected id that is present as a top-level key maps to a
mapping (dict) record. Trivially true for non-dict payloads. -/
def recordsAreObjs (data : JValue) (expectedIds : List String) : Bool :=
  match data with
  | .obj fs =>
    expectedIds.all fun cid =>
      match objGet fs cid with
      | some v => isObj v
      | none => true
  | _ => true

/-- Whether a JSON value supports the Python membership test `x in v`
without raising: dicts, strings and lists do. -/
def isContainer : JValue → Bool
  | .obj _ => true
  | .str _ => true
  | .arr _ => true
  | _ => false

/-- Every expected id that is present as a top-level key maps to a
value supporting the membership test. Trivially true for non-dict
payloads. -/
def recordsAreContainers (data : JValue) (expectedIds : List String) : Bool :=
  match data with
  | .obj fs =>
    expectedIds.all fun cid =>
      match objGet fs cid with
      | some v => isContainer v
      | none => true
  | _ => true

/-! ### Lemmas about `validate_price_data` -/

/-- The field loop only appends to stdout and never touches the
network: its run from any world is its run from the empty world with
the incoming stdout prepended. -/
theorem validateFieldsW_split (cid : String) (cd : JValue) :
    ∀ (flds : List String) (w : World),
    validateFieldsW cid cd flds w =
      ((validateFieldsW cid cd flds ⟨[], 0⟩).1,
       ⟨w.stdout ++ (validateFieldsW cid cd flds ⟨[], 0⟩).2.stdout,
        w.networkCalls⟩) := by
  intro flds
  induction flds with
  | nil => intro w; cases w; simp [validateFieldsW]
  | cons f fs ih =>
    intro w
    cases hp : pyContains f cd with
    | error e => cases w; simp [validateFieldsW, hp]
    | ok b =>
      cases b with
      | false => cases w; simp [validateFieldsW, hp, pr]
      | true => simp only [validateFieldsW, hp]; exact ih w

/-- The id loop only appends to stdout and never touches the network. -/
theorem validateIdsW_split (fs : List (String × JValue)) :
    ∀ (ids : List String) (w : World),
    validateIdsW fs ids w =
      ((validateIdsW fs ids ⟨[], 0⟩).1,
       ⟨w.stdout ++ (validateIdsW fs ids ⟨[], 0⟩).2.stdout,
        w.networkCalls⟩) := by
  intro ids
  induction ids with
  | nil => intro w; cases w; simp [validateIdsW]
  | cons cid rest ih =>
    intro w
    cases hg : objGet fs cid with
    | none => cases w; simp [validateIdsW, hg, pr]
    | some cd =>
      simp only [validateIdsW, hg]
      rcases hz : validateFieldsW cid cd requiredFields ⟨[], 0⟩ with ⟨r0, w0⟩
      have hsplit := validateFieldsW_split cid cd requiredFields w
      rw [hz] at hsplit
      rw [hsplit]
      cases r0 with
      | error e => cases w; simp
      | ok b =>
        cases b with
        | false => cases w; simp
        | true =>
          simp only []
          rw [ih ⟨w.stdout ++ w0.stdout, w.networkCalls⟩, ih w0]
          simp

/-- On a dict record the field loop never raises; it returns `True`
exactly when every listed field occurs as a key of the record. -/
theorem validateFieldsW_obj_fst (cid : String) (rec : List (String × JValue)) :
    ∀ (flds : List String) (w : World),
    (validateFieldsW cid (.obj rec) flds w).1 =
      .ok (flds.all fun f => rec.any fun p => p.1 == f) := by
  intro flds
  induction flds with
  | nil => intro w; simp [validateFieldsW]
  | cons f fs ih =>
    intro w
    cases hb : rec.any fun p => p.1 == f with
    | false => simp [validateFieldsW, pyContains, hb]
    | true => simp [validateFieldsW, pyContains, hb, ih]

/-- On a container record the field loop never raises. -/
theorem validateFieldsW_container_fst (cid : String) (cd : JValue)
    (hc : isContainer cd = true) :
    ∀ (flds : List String) (w : World),
    ∃ b, (validateFieldsW cid cd flds w).1 = .ok b := by
  intro flds
  induction flds with
  | nil => intro w; exact ⟨true, rfl⟩
  | cons f fs ih =>
    intro w
    have hp : ∃ b, pyContains f cd = .ok b := by
      cases cd <;> simp_all [isContainer, pyContains]
    obtain ⟨b, hb⟩ := hp
    cases b with
    | false => exact ⟨false, by simp [validateFieldsW, hb]⟩
    | true => simpa [validateFieldsW, hb] using ih w

/-- A value satisfying `isObj` is an `obj`. -/
theorem isObj_eq (v : JValue) (h : isObj v = true) :
    ∃ rec, v = .obj rec := by
  cases v <;> simp_all [isObj]

/-- The id loop returns `True` exactly on spec-valid payloads, provided
every present record is a dict. -/
theorem validateIdsW_fst_iff (fs : List (String × JValue)) :
    ∀ (ids : List String) (w : World),
    recordsAreObjs (.obj fs) ids = true →
    ((validateIdsW fs ids w).1 = .ok true ↔
      specValidPayload (.obj fs) ids = true) := by
  intro ids
  induction ids with
  | nil => intro w _; simp [validateIdsW, specValidPayload]
  | cons cid rest ih =>
    intro w h
    simp only [recordsAreObjs, List.all_cons, Bool.and_eq_true] at h
    obtain ⟨h1, h2⟩ := h
    cases hg : objGet fs cid with
    | none => simp [validateIdsW, hg, specValidPayload]
    | some v =>
      rw [hg] at h1
      obtain ⟨rec, rfl⟩ := isObj_eq v h1
      simp only [validateIdsW, hg]
      rcases hz : validateFieldsW cid (.obj rec) requiredFields w with ⟨r0, w0⟩
      have hf := validateFieldsW_obj_fst cid rec requiredFields w
      rw [hz] at hf
      simp only at hf
      subst hf
      cases hb : requiredFields.all fun f => rec.any fun p => p.1 == f with
      | false => simp [specValidPayload, hg, hb]
      | true =>
        simpa [specValidPayload, hg, hb] using ih w0 h2

/-- The id loop never raises, provided every present record is a
container. -/
theorem validateIdsW_fst_total (fs : List (String × JValue)) :
    ∀ (ids : List String) (w : World),
    recordsAreContainers (.obj fs) ids = true →
    ∃ b, (validateIdsW fs ids w).1 = .ok b := by
  intro ids
  induction ids with
  | nil => intro w _; exact ⟨true, rfl⟩
  | cons cid rest ih =>
    intro w h
    simp only [recordsAreContainers, List.all_cons, Bool.and_eq_true] at h
    obtain ⟨h1, h2⟩ := h
    cases hg : objGet fs cid with
    | none => exact ⟨false, by simp [validateIdsW, hg]⟩
    | some v =>
      rw [hg] at h1
      simp only [validateIdsW, hg]
      rcases hz : validateFieldsW cid v requiredFields w with ⟨r0, w0⟩
      obtain ⟨b, hb⟩ := validateFieldsW_container_fst cid v h1 requiredFields w
      rw [hz] at hb
      simp only at hb
      subst hb
      cases b with
      | false => exact ⟨false, rfl⟩
      | true => exact ih w0 h2

/-! ### Lemmas about `fetch_with_retry` -/

/-- A non-success attempt raises some `requests` exception. -/
theorem attemptResult_of_fail (a : AttemptOutcome) (h : a.isSuccess = false) :
    ∃ e, attemptResult a = .error e := by
  cases a <;> simp_all [AttemptOutcome.isSuccess, attemptResult]

/-- One-step unfolding of the loop when the current attempt succeeds. -/
theorem fetchLoop_succ_ok (o : Nat → AttemptOutcome) (m : Int)
    (fuel attempt : Nat) (r : Response)
    (h : attemptResult (o attempt) = .ok r) :
    fetchLoop o m (fuel + 1) attempt = ⟨.ok (some r), [attempt], []⟩ := by
  simp [fetchLoop, h]

/-- One-step unfolding of the loop when the current attempt raises a
`RequestException`: the exception is caught and the loop retries,
sleeping only when `attempt < max_retries - 1`. -/
theorem fetchLoop_succ_err (o : Nat → AttemptOutcome) (m : Int)
    (fuel attempt : Nat) (e : ReqExcKind)
    (h : attemptResult (o attempt) = .error e) :
    fetchLoop o m (fuel + 1) attempt =
      if (attempt : Int) < m - 1 then
        ⟨(fetchLoop o m fuel (attempt + 1)).result,
         attempt :: (fetchLoop o m fuel (attempt + 1)).attempts,
         2 ^ attempt :: (fetchLoop o m fuel (attempt + 1)).sleeps⟩
      else
        ⟨(fetchLoop o m fuel (attempt + 1)).result,
         attempt :: (fetchLoop o m fuel (attempt + 1)).attempts,
         (fetchLoop o m fuel (attempt + 1)).sleeps⟩ := by
  simp [fetchLoop, h, isRequestException]

/-- If every attempt in the window fails, the loop performs all of
them, sleeps `2 ^ i` after each except the last, and returns `None`. -/
theorem fetchLoop_all_fail (o : Nat → AttemptOutcome) (m : Int) :
    ∀ (fuel attempt : Nat), (attempt : Int) + fuel = m →
    (∀ i, attempt ≤ i → i < attempt + fuel → (o i).isSuccess = false) →
    fetchLoop o m fuel attempt =
      ⟨.ok none, List.range' attempt fuel,
       (List.range' attempt (fuel - 1)).map fun i => 2 ^ i⟩ := by
  intro fuel
  induction fuel with
  | zero => intro attempt _ _; rfl
  | succ n ih =>
    intro attempt hm hfail
    push_cast at hm
    have hcur : (o attempt).isSuccess = false :=
      hfail attempt le_rfl (by omega)
    obtain ⟨e, he⟩ := attemptResult_of_fail _ hcur
    rw [fetchLoop_succ_err o m n attempt e he]
    by_cases hc : (attempt : Int) < m - 1
    · obtain ⟨k, rfl⟩ : ∃ k, n = k + 1 := ⟨n - 1, by omega⟩
      have hrest := ih (attempt + 1) (by push_cast; omega)
        (fun i h1 h2 => hfail i (by omega) (by omega))
      rw [if_pos hc, hrest]
      simp [List.range'_succ]
    · have hn : n = 0 := by omega
      subst hn
      rw [if_neg hc]
      simp [fetchLoop, List.range'_one]

/-- If attempt `k` is the first success inside the window, the loop
performs attempts `attempt..k`, sleeps `2 ^ i` after each failed one,
and returns attempt `k`'s response. -/
theorem fetchLoop_first_success (o : Nat → AttemptOutcome) (m : Int)
    (k : Nat) (r : Response) (hk : o k = .success r) :
    ∀ (fuel attempt : Nat), (attempt : Int) + fuel = m →
    attempt ≤ k → k < attempt + fuel →
    (∀ i, attempt ≤ i → i < k → (o i).isSuccess = false) →
    fetchLoop o m fuel attempt =
      ⟨.ok (some r), List.range' attempt (k + 1 - attempt),
       (List.range' attempt (k - attempt)).map fun i => 2 ^ i⟩ := by
  intro fuel
  induction fuel with
  | zero => intro attempt _ hle hlt _; omega
  | succ n ih =>
    intro attempt hm hle hlt hfail
    push_cast at hm
    rcases eq_or_lt_of_le hle with heq | hlt2
    · subst heq
      rw [fetchLoop_succ_ok o m n attempt r (by rw [hk]; rfl)]
      simp [Nat.add_sub_cancel_left, Nat.sub_self]
    · have hcur := hfail attempt le_rfl hlt2
      obtain ⟨e, he⟩ := attemptResult_of_fail _ hcur
      have hc : (attempt : Int) < m - 1 := by omega
      have hrest := ih (attempt + 1) (by push_cast; omega) (by omega) (by omega)
        (fun i h1 h2 => hfail i (by omega) h2)
      rw [fetchLoop_succ_err o m n attempt e he, if_pos hc, hrest]
      have e1 : k + 1 - attempt = ((k - (attempt + 1)) + 1) + 1 := by omega
      have e2 : k - attempt = (k - (attempt + 1)) + 1 := by omega
      have e3 : k + 1 - (attempt + 1) = (k - (attempt + 1)) + 1 := by omega
      rw [e1, e2, e3]
      simp [List.range'_succ]

/-- The loop never lets an exception escape: its result is always
`.ok`. -/
theorem fetchLoop_no_raise (o : Nat → AttemptOutcome) (m : Int) :
    ∀ (fuel attempt : Nat),
    ∃ res, (fetchLoop o m fuel attempt).result = .ok res := by
  intro fuel
  induction fuel with
  | zero => intro attempt; exact ⟨none, rfl⟩
  | succ n ih =>
    intro attempt
    cases ha : attemptResult (o attempt) with
    | ok r => exact ⟨some r, by rw [fetchLoop_succ_ok o m n attempt r ha]⟩
    | error e =>
      obtain ⟨res, hres⟩ := ih (attempt + 1)
      refine ⟨res, ?_⟩
      rw [fetchLoop_succ_err o m n attempt e ha]
      by_cases hc : (attempt : Int) < m - 1
      · rw [if_pos hc]; exact hres
      · rw [if_neg hc]; exact hres

/-! ### Claim theorems -/

/-- C1: if every attempt fails with a retryable failure,
`fetch_with_retry` performs exactly `max_retries` attempts, sleeps
`2 ^ i` seconds after each failed attempt except the last, so the total
slept time is at least `sum(2 ^ i for i in 0..max_retries-2)` seconds,
and returns `None`. -/
theorem fetch_with_retry_all_fail (o : Nat → AttemptOutcome) (m : Int)
    (h0 : 0 ≤ m) (hfail : ∀ i, i < m.toNat → (o i).isSuccess = false) :
    (fetch_with_retry o m).result = .ok none ∧
    (fetch_with_retry o m).attempts = List.range m.toNat ∧
    (fetch_with_retry o m).sleeps =
      (List.range (m.toNat - 1)).map (fun i => 2 ^ i) ∧
    ((List.range (m.toNat - 1)).map fun i => 2 ^ i).sum ≤
      (fetch_with_retry o m).sleeps.sum := by
  have h := fetchLoop_all_fail o m m.toNat 0 (by omega)
    (fun i _ h2 => hfail i (by omega))
  rw [fetch_with_retry, h]
  simp [List.range_eq_range']

/-- Witness for C1 at `max_retries = 3` with every attempt a network
error: three attempts, sleeps `[1, 2]`, failure signal returned. -/
theorem fetch_with_retry_all_fail_witness :
    (fetch_with_retry (fun _ => .connError) 3).result = .ok none ∧
    (fetch_with_retry (fun _ => .connError) 3).attempts =
      List.range (3 : Int).toNat ∧
    (fetch_with_retry (fun _ => .connError) 3).sleeps =
      (List.range ((3 : Int).toNat - 1)).map (fun i => 2 ^ i) ∧
    ((List.range ((3 : Int).toNat - 1)).map fun i => 2 ^ i).sum ≤
      (fetch_with_retry (fun _ => .connError) 3).sleeps.sum :=
  fetch_with_retry_all_fail (fun _ => .connError) 3 (by decide)
    (fun i _ => rfl)

/-- C2: if attempt `k < max_retries` is the first to succeed,
`fetch_with_retry` returns that attempt's response and performs exactly
the attempts `0..k`, none after `k`. -/
theorem fetch_with_retry_first_success (o : Nat → AttemptOutcome)
    (m : Int) (k : Nat) (r : Response) (hk : k < m.toNat)
    (hs : o k = .success r)
    (hfail : ∀ i, i < k → (o i).isSuccess = false) :
    (fetch_with_retry o m).result = .ok (some r) ∧
    (fetch_with_retry o m).attempts = List.range (k + 1) := by
  have h := fetchLoop_first_success o m k r hs m.toNat 0 (by omega)
    (Nat.zero_le k) (by omega) (fun i _ h2 => hfail i h2)
  rw [fetch_with_retry, h]
  refine ⟨rfl, ?_⟩
  rw [List.range_eq_range']
  simp

/-- Witness for C2: attempt 0 fails, attempt 1 succeeds; the response
of attempt 1 is returned after exactly two attempts. -/
theorem fetch_with_retry_first_success_witness :
    (fetch_with_retry
      (fun i => if i = 0 then .connError else .success ⟨.ok .null⟩)
      3).result = .ok (some ⟨.ok .null⟩) ∧
    (fetch_with_retry
      (fun i => if i = 0 then .connError else .success ⟨.ok .null⟩)
      3).attempts = List.range (1 + 1) :=
  fetch_with_retry_first_success
    (fun i => if i = 0 then .connError else .success ⟨.ok .null⟩)
    3 1 ⟨.ok .null⟩ (by decide) rfl
    (fun i hi => by
      have h0 : i = 0 := by omega
      subst h0; rfl)

/-- C3: `fetch_with_retry` never lets an exception escape for expected
failure modes: for every sequence of attempt outcomes (2xx success,
network error, timeout, non-2xx status) and every retry bound, it
terminates with `.ok` — a response object or `None` — and the branch
that would propagate an uncaught exception is never taken. -/
theorem fetch_with_retry_no_raise (o : Nat → AttemptOutcome) (m : Int) :
    ∃ res, (fetch_with_retry o m).result = .ok res :=
  fetchLoop_no_raise o m m.toNat 0

/-- C10: constructed with a non-positive `max_retries`,
`fetch_with_retry` returns `None` immediately: no attempt, no sleep. -/
theorem fetch_with_retry_nonpositive (o : Nat → AttemptOutcome)
    (m : Int) (h : m ≤ 0) :
    (fetch_with_retry o m).result = .ok none ∧
    (fetch_with_retry o m).attempts = [] ∧
    (fetch_with_retry o m).sleeps = [] := by
  have hz : m.toNat = 0 := by omega
  rw [fetch_with_retry, hz]
  exact ⟨rfl, rfl, rfl⟩

/-- Witness for C10 at `max_retries = -2`. -/
theorem fetch_with_retry_nonpositive_witness :
    (fetch_with_retry (fun _ => .connError) (-2)).result = .ok none ∧
    (fetch_with_retry (fun _ => .connError) (-2)).attempts = [] ∧
    (fetch_with_retry (fun _ => .connError) (-2)).sleeps = [] :=
  fetch_with_retry_nonpositive (fun _ => .connError) (-2) (by decide)

/-- C4 (amended): provided every present expected id's record is
itself a mapping, `validate_price_data` returns `True` iff the payload
is a keyed mapping, every expected id is present as a top-level key,
and every expected id's record contains the three fixed sub-fields
`usd`, `usd_24h_change`, `usd_market_cap`; the three concrete examples
of the claim hold. (Unrestricted, the iff fails: a record that is a
string containing the field names as substrings also passes, see the
counterexample.) -/
theorem validate_price_data_iff (data : JValue) (ids : List String)
    (hrec : recordsAreObjs data ids = true) :
    (validate_price_data data ids = .ok true ↔
      specValidPayload data ids = true) ∧
    validate_price_data (.obj []) ["bitcoin"] = .ok false ∧
    validate_price_data (.obj [("bitcoin", .obj [("usd", .num 1)])])
      ["bitcoin"] = .ok false ∧
    validate_price_data (.obj [("bitcoin", .obj [("usd", .num 1),
      ("usd_24h_change", .num 1), ("usd_market_cap", .num 1)])])
      ["bitcoin"] = .ok true := by
  refine ⟨?_, rfl, rfl, rfl⟩
  cases data
  case obj fs => exact validateIdsW_fst_iff fs ids ⟨[], 0⟩ hrec
  all_goals simp [validate_price_data, validate_price_dataW, specValidPayload]

/-- Counterexample to C4 as stated: a payload whose `bitcoin` record is
a plain string containing the three field names as substrings is
accepted by the code (Python `in` on a string is substring search), yet
it has no sub-fields at all. -/
theorem validate_price_data_iff_cex :
    validate_price_data
      (.obj [("bitcoin", .str "usd usd_24h_change usd_market_cap")])
      ["bitcoin"] = .ok true ∧
    specValidPayload
      (.obj [("bitcoin", .str "usd usd_24h_change usd_market_cap")])
      ["bitcoin"] = false := ⟨rfl, rfl⟩

/-- Witness for C4 at the claim's own valid payload. -/
theorem validate_price_data_iff_witness :
    (validate_price_data (.obj [("bitcoin", .obj [("usd", .num 1),
      ("usd_24h_change", .num 1), ("usd_market_cap", .num 1)])])
      ["bitcoin"] = .ok true ↔
      specValidPayload (.obj [("bitcoin", .obj [("usd", .num 1),
      ("usd_24h_change", .num 1), ("usd_market_cap", .num 1)])])
      ["bitcoin"] = true) ∧
    validate_price_data (.obj []) ["bitcoin"] = .ok false ∧
    validate_price_data (.obj [("bitcoin", .obj [("usd", .num 1)])])
      ["bitcoin"] = .ok false ∧
    validate_price_data (.obj [("bitcoin", .obj [("usd", .num 1),
      ("usd_24h_change", .num 1), ("usd_market_cap", .num 1)])])
      ["bitcoin"] = .ok true :=
  validate_price_data_iff (.obj [("bitcoin", .obj [("usd", .num 1),
    ("usd_24h_change", .num 1), ("usd_market_cap", .num 1)])])
    ["bitcoin"] rfl

/-- C7 (amended): `validate_price_data` terminates with a boolean for
every payload whose present expected-id records support the Python
membership test (mappings, strings, lists), and a non-mapping payload
yields `False`; but on a record that is a number, boolean or null the
code raises `TypeError` instead of returning a boolean, see the
counterexample. -/
theorem validate_price_data_total (data : JValue) (ids : List String)
    (h : recordsAreContainers data ids = true) :
    (∃ b, validate_price_data data ids = .ok b) ∧
    (isObj data = false → validate_price_data data ids = .ok false) := by
  cases data
  case obj fs =>
    refine ⟨validateIdsW_fst_total fs ids ⟨[], 0⟩ h, ?_⟩
    intro hfalse
    simp [isObj] at hfalse
  all_goals exact ⟨⟨false, rfl⟩, fun _ => rfl⟩

/-- Counterexample to C7 as stated: an expected id mapped to a number
makes `validate_price_data` raise `TypeError` (Python `'usd' in 1`),
not return a boolean. -/
theorem validate_price_data_total_cex :
    validate_price_data (.obj [("bitcoin", .num 1)]) ["bitcoin"]
      = .error .typeError := rfl

/-- Witness for C7 at a payload whose record is a string. -/
theorem validate_price_data_total_witness :
    (∃ b, validate_price_data (.obj [("ethereum", .str "x")])
      ["ethereum"] = .ok b) ∧
    (isObj (.obj [("ethereum", .str "x")]) = false →
      validate_price_data (.obj [("ethereum", .str "x")])
        ["ethereum"] = .ok false) :=
  validate_price_data_total (.obj [("ethereum", .str "x")])
    ["ethereum"] rfl

/-- C8 (amended): apart from diagnostic lines printed to stdout,
`validate_price_data` is pure: its result does not depend on the
incoming world (two calls on the same arguments return the same
boolean — no hidden state), it performs no network access, and the
lines it appends to stdout depend only on its arguments. (As stated
the claim fails: the code does print, see the counterexample.) -/
theorem validate_price_data_effects (data : JValue) (ids : List String)
    (w w' : World) :
    (validate_price_dataW data ids w).1 =
      (validate_price_dataW data ids w').1 ∧
    (validate_price_dataW data ids w).2.networkCalls = w.networkCalls ∧
    ∃ out, (validate_price_dataW data ids w).2.stdout = w.stdout ++ out ∧
      (validate_price_dataW data ids w').2.stdout = w'.stdout ++ out := by
  cases data
  case obj fs =>
    simp only [validate_price_dataW]
    rw [validateIdsW_split fs ids w, validateIdsW_split fs ids w']
    exact ⟨rfl, rfl, (validateIdsW fs ids ⟨[], 0⟩).2.stdout, rfl, rfl⟩
  all_goals exact ⟨rfl, rfl, [], by simp [validate_price_dataW],
    by simp [validate_price_dataW]⟩

/-- Counterexample to C8 as stated: `validate_price_data` does have a
side effect — validating `{}` against `["bitcoin"]` prints
`Missing data for bitcoin`, so the world is not left unchanged. -/
theorem validate_price_data_effects_cex :
    (validate_price_dataW (.obj []) ["bitcoin"] ⟨[], 0⟩).2
      ≠ (⟨[], 0⟩ : World) := by decide

/-- C5: `fetch_crypto_prices` returns the failure signal `None` alike
for transport failure (`fetch_with_retry` returned `None`), for a body
that fails to parse as JSON (`json.JSONDecodeError` is caught, not
raised), and for a parsed payload that fails `validate_price_data` —
the caller observes the identical result shape in all three cases. -/
theorem fetch_crypto_prices_failure_modes (ids : List String)
    (d : JValue) (hv : validate_price_data d ids = .ok false) :
    fetch_crypto_prices none ids = .ok none ∧
    fetch_crypto_prices (some ⟨.error .jsonDecodeError⟩) ids = .ok none ∧
    fetch_crypto_prices (some ⟨.ok d⟩) ids = .ok none := by
  refine ⟨rfl, rfl, ?_⟩
  simp [fetch_crypto_prices, hv]

/-- Witness for C5: transport failure, parse failure and the schema
violation `{}` against `["bitcoin"]` all return `None`. -/
theorem fetch_crypto_prices_failure_modes_witness :
    fetch_crypto_prices none ["bitcoin"] = .ok none ∧
    fetch_crypto_prices (some ⟨.error .jsonDecodeError⟩) ["bitcoin"]
      = .ok none ∧
    fetch_crypto_prices (some ⟨.ok (.obj [])⟩) ["bitcoin"] = .ok none :=
  fetch_crypto_prices_failure_modes ["bitcoin"] (.obj []) rfl

/-- C6: round-trip identity — for a non-empty id list, if transport
succeeded and the body parsed to a payload passing
`validate_price_data`, `fetch_crypto_prices` returns exactly that
parsed payload, unchanged. -/
theorem fetch_crypto_prices_roundtrip (ids : List String) (d : JValue)
    (_hne : ids ≠ []) (hv : validate_price_data d ids = .ok true) :
    fetch_crypto_prices (some ⟨.ok d⟩) ids = .ok (some d) := by
  simp [fetch_crypto_prices, hv]

/-- Witness for C6 at a two-id payload with all required fields. -/
theorem fetch_crypto_prices_roundtrip_witness :
    fetch_crypto_prices
      (some ⟨.ok (.obj [("bitcoin", .obj [("usd", .num 1),
        ("usd_24h_change", .num 1), ("usd_market_cap", .num 1)]),
        ("ethereum", .obj [("usd", .num 2),
        ("usd_24h_change", .num 2), ("usd_market_cap", .num 2)])])⟩)
      ["bitcoin", "ethereum"]
      = .ok (some (.obj [("bitcoin", .obj [("usd", .num 1),
        ("usd_24h_change", .num 1), ("usd_market_cap", .num 1)]),
        ("ethereum", .obj [("usd", .num 2),
        ("usd_24h_change", .num 2), ("usd_market_cap", .num 2)])])) :=
  fetch_crypto_prices_roundtrip ["bitcoin", "ethereum"]
    (.obj [("bitcoin", .obj [("usd", .num 1),
      ("usd_24h_change", .num 1), ("usd_market_cap", .num 1)]),
      ("ethereum", .obj [("usd", .num 2),
      ("usd_24h_change", .num 2), ("usd_market_cap", .num 2)])])
    (by simp) rfl

/-- C9: when transport succeeds and the body parses to a JSON object
whose `description` field is absent — or whose English text is empty —
`fetch_additional_market_data` returns a dictionary whose description
entry is the fallback string `No description available` rather than the
failure signal; and the call returns `None` only on transport or parse
failure, never for missing descriptive metadata. (The `symbol` field,
if present, is assumed to be a string, as a non-string symbol raises
before the description is built.) -/
theorem fetch_additional_market_data_fallback
    (fs : List (String × JValue))
    (hsym : ∃ s, (objGet fs "symbol").getD (.str "") = .str s)
    (hdesc : objGet fs "description" = none ∨
      ∃ dfs, objGet fs "description" = some (.obj dfs) ∧
        (objGet dfs "en" = none ∨ objGet dfs "en" = some (.str ""))) :
    (∃ md, fetch_additional_market_data (some ⟨.ok (.obj fs)⟩)
        = .ok (some md) ∧
      md.description = "No description available") ∧
    (∀ fr, fetch_additional_market_data fr = .ok none →
      fr = none ∨ ∃ r e, fr = some r ∧ r.jsonResult = .error e) := by
  constructor
  · obtain ⟨s, hs⟩ := hsym
    refine ⟨⟨(objGet fs "name").getD (.str "Unknown"), s.toUpper,
      "No description available"⟩, ?_, rfl⟩
    rcases hdesc with hnone | ⟨dfs, hdfs, hen⟩
    · have hd : (objGet fs "description").getD (.obj []) = .obj [] := by
        simp [hnone]
      have he1 : (objGet ([] : List (String × JValue)) "en").getD
          JValue.null = .null := rfl
      simp [fetch_additional_market_data, hs, hd, he1, pyTruthy]
    · have hd : (objGet fs "description").getD (.obj []) = .obj dfs := by
        simp [hdfs]
      rcases hen with hen | hen
      · have he1 : (objGet dfs "en").getD JValue.null = .null := by
          simp [hen]
        simp [fetch_additional_market_data, hs, hd, he1, pyTruthy]
      · have he1 : (objGet dfs "en").getD JValue.null = .str "" := by
          simp [hen]
        simp [fetch_additional_market_data, hs, hd, he1, pyTruthy,
          show ("" : String).isEmpty = true from rfl]
  · intro fr h
    match fr with
    | none => exact Or.inl rfl
    | some resp =>
      refine Or.inr ?_
      match hj : resp.jsonResult with
      | .error e => exact ⟨resp, e, rfl, hj⟩
      | .ok data =>
        exfalso
        simp only [fetch_additional_market_data, hj] at h
        repeat' split at h
        all_goals simp_all

/-- Witness for C9 at the empty object: symbol defaults to the empty
string, description is absent, the fallback is returned. -/
theorem fetch_additional_market_data_fallback_witness :
    (∃ md, fetch_additional_market_data (some ⟨.ok (.obj [])⟩)
        = .ok (some md) ∧
      md.description = "No description available") ∧
    (∀ fr, fetch_additional_market_data fr = .ok none →
      fr = none ∨ ∃ r e, fr = some r ∧ r.jsonResult = .error e) :=
  fetch_additional_market_data_fallback [] ⟨"", rfl⟩ (Or.inl rfl)

end WebScraper
